import Mathlib

/-!
Verification of the mutation-and-cache-consistency core of the
modern-react-forms comment-board application.

The embedding below translates, from the TypeScript source:

* `src/app/comments/action.ts` — the `submitComment` server action
  (read `comments.json`, `JSON.parse`, append the submitted comment,
  `writeFile`, `revalidateTag("comments")`);
* `src/app/api/comments/route.ts` — the `GET` route returning the raw
  stored bytes;
* `src/app/search/page.tsx` — `getComments`, the search filter over the
  fetched comments;
* the optimistic-update reducer passed to `useOptimistic` in
  `OptimisticComments`;
* the `submitFeedback` server action with its zod schema
  (name: string of length 2 to 100, email: the zod email format check,
  feedback: string of length 10 to 1000).

The filesystem is modelled as a tagged store: a readable file holds either a
well-formed JSON array of strings (`RawContent.arr`) or malformed bytes
(`RawContent.bad`), or the medium is unreadable.  JavaScript exceptions are
modelled by `Except JsError`; the trace of effects performed by a run of
`submitComment` is returned explicitly so that ordering claims about the
`revalidateTag` call can be stated.
-/

namespace ModernReactForms

/-- Raw bytes stored in `comments.json`: either a well-formed JSON array of
strings (`JSON.parse` succeeds and yields the list), or malformed content on
which `JSON.parse` throws a `SyntaxError`. -/
inductive RawContent
  | arr (log : List String)
  | bad
  deriving DecidableEq

/-- State of the `comments.json` resource: readable bytes, or an unreadable
medium on which `readFile` rejects. -/
inductive FileData
  | stored (c : RawContent)
  | unreadable
  deriving DecidableEq

/-- JavaScript exceptions that the comment paths can raise: `readFile`
rejection, `writeFile` rejection, and the `SyntaxError` thrown by
`JSON.parse` on malformed input. -/
inductive JsError
  | ioRead
  | ioWrite
  | syntaxError
  deriving DecidableEq

/-- Observable effects of a `submitComment` run, in execution order:
the successful file read, the successful file write, and the
`revalidateTag("comments")` cache-invalidation signal. -/
inductive Ev
  | readEv
  | writeEv
  | revalidateEv
  deriving DecidableEq

/-- `await readFile("comments.json", "utf8")`: rejects iff the medium is
unreadable, otherwise yields the raw bytes. -/
def readFileJs : FileData → Except JsError RawContent
  | FileData.stored c => Except.ok c
  | FileData.unreadable => Except.error JsError.ioRead

/-- `JSON.parse` restricted to the comment-log document: yields the string
array for well-formed content, throws `SyntaxError` on malformed bytes. -/
def jsonParseLog : RawContent → Except JsError (List String)
  | RawContent.arr log => Except.ok log
  | RawContent.bad => Except.error JsError.syntaxError

/-- `await writeFile("comments.json", JSON.stringify(newLog))`: whole-document
replace.  `writeOk` models whether the underlying medium accepts the write;
on failure the write rejects and the file is left as it was. -/
def writeFileJs (writeOk : Bool) (newLog : List String) :
    Except JsError FileData :=
  if writeOk then Except.ok (FileData.stored (RawContent.arr newLog))
  else Except.error JsError.ioWrite

/-- The `submitComment` server action of `src/app/comments/action.ts`,
statement by statement:

1. `const existingComments = JSON.parse(await readFile("comments.json", "utf8"))`
2. `const comment = formData.get("comment") as string`
3. `await writeFile("comments.json", JSON.stringify([...existingComments, comment]))`
4. `revalidateTag("comments")`

The action returns `void`; an exception anywhere aborts the remaining
statements and propagates to the caller.  The result is the outcome, the
final file state, and the trace of effects that actually happened. -/
def submitComment (file : FileData) (writeOk : Bool) (comment : String) :
    Except JsError Unit × FileData × List Ev :=
  match readFileJs file with
  | Except.error e => (Except.error e, file, [])
  | Except.ok raw =>
    match jsonParseLog raw with
    | Except.error e => (Except.error e, file, [Ev.readEv])
    | Except.ok existingComments =>
      match writeFileJs writeOk (existingComments ++ [comment]) with
      | Except.error e => (Except.error e, file, [Ev.readEv])
      | Except.ok file2 =>
        (Except.ok (), file2, [Ev.readEv, Ev.writeEv, Ev.revalidateEv])

/-- The `GET` handler of `src/app/api/comments/route.ts`:
`const comments = await readFile("comments.json"); return new Response(comments)`.
The stored bytes are returned verbatim, without parsing; only a `readFile`
rejection makes the route fail (a server error). -/
def getRoute (file : FileData) : Except JsError RawContent :=
  match file with
  | FileData.stored c => Except.ok c
  | FileData.unreadable => Except.error JsError.ioRead

/-- `await response.json()` on the client: parses the body returned by the
route, throwing on malformed bytes. -/
def responseJson (body : RawContent) : Except JsError (List String) :=
  jsonParseLog body

/-- The full read path used by the pages (`getComments` in
`src/app/search/page.tsx` and the comment pages): fetch `GET /api/comments`,
then `await response.json()`. -/
def readAll (file : FileData) : Except JsError (List String) :=
  match getRoute file with
  | Except.error e => Except.error e
  | Except.ok body => responseJson body

/-- Trace checker: every `revalidateEv` in the trace is preceded by a
`writeEv` (the cache-invalidation signal fires only after the persist has
completed). -/
def revalidateAfterWrite : Bool → List Ev → Bool
  | _, [] => true
  | _, Ev.writeEv :: rest => revalidateAfterWrite true rest
  | seenW, Ev.revalidateEv :: rest => seenW && revalidateAfterWrite seenW rest
  | seenW, Ev.readEv :: rest => revalidateAfterWrite seenW rest

/-! ### Search filter (`getComments` in `src/app/search/page.tsx`) -/

/-- Contiguous-substring containment, the model of JavaScript
`String.prototype.includes` over the characters of the strings. -/
def containsSub (needle : List Char) : List Char → Bool
  | [] => needle.isEmpty
  | c :: rest => needle.isPrefixOf (c :: rest) || containsSub needle rest

/-- `hay.includes(needle)` for JavaScript strings. -/
def jsIncludes (hay needle : String) : Bool :=
  containsSub needle.data hay.data

/-- JavaScript `String.prototype.toLowerCase`, character by character (the
ASCII range, which covers every string these claims quantify over
concretely). -/
def toLowerCaseJs (s : String) : String :=
  String.mk (s.data.map Char.toLower)

/-- The filtering step of `getComments` in `src/app/search/page.tsx`:

```
if (!searchQuery) return comments;
return comments.filter((comment) =>
  comment.toLowerCase().includes(searchQuery.toLowerCase()));
```

`searchQuery` is an optional parameter; JavaScript falsiness makes both the
absent (`none`) and the empty-string query return the comments unfiltered. -/
def getComments (comments : List String) (searchQuery : Option String) : List String :=
  match searchQuery with
  | none => comments
  | some q =>
    if q = "" then comments
    else comments.filter (fun comment =>
      jsIncludes (toLowerCaseJs comment) (toLowerCaseJs q))

/-! ### Optimistic reconciliation (`OptimisticComments`) -/

/-- The reducer passed to `useOptimistic` in `OptimisticComments`:
`(state, newComment) => [...state, newComment]`. -/
def optimisticReducer (state : List String) (newComment : String) : List String :=
  state ++ [newComment]

/-- The overlay state shown after a sequence of `addOptimisticComment` calls:
`useOptimistic` applies the reducer once per pending value, in submission
order, starting from the authoritative base state. -/
def applyOptimistic (base : List String) (pending : List String) : List String :=
  pending.foldl optimisticReducer base

/-! ### Validation engine (`submitFeedback` and its zod schema) -/

/-- Issue kinds produced by the zod checks used in `feedbackSchema`:
`invalid_type` (field absent: `formData.get` returned `null`, not a string),
`too_small` / `too_big` (string length bounds), `invalid_string` (the
`.email()` format check). -/
inductive ZodIssue
  | invalidType
  | tooSmall
  | tooBig
  | invalidString
  deriving DecidableEq

/-- A character admitted anywhere but last in the local part of an email by
the zod email pattern: letters, digits, underscore, apostrophe, plus, hyphen,
dot. -/
def isEmailLocalChar (c : Char) : Bool :=
  c.isAlpha || c.isDigit || c == '_' || c == Char.ofNat 39 || c == '+' ||
    c == '-' || c == '.'

/-- A character admitted as the last character of the local part (no dot, no
apostrophe). -/
def isEmailLocalEndChar (c : Char) : Bool :=
  c.isAlpha || c.isDigit || c == '_' || c == '+' || c == '-'

/-- Local part of an email: nonempty, all characters from the local class,
the final character from the restricted end class. -/
def emailLocalOk : List Char → Bool
  | [] => false
  | [c] => isEmailLocalEndChar c
  | c :: rest => isEmailLocalChar c && emailLocalOk rest

/-- A domain label: nonempty, starts with a letter or digit, continues with
letters, digits or hyphens. -/
def emailLabelOk : List Char → Bool
  | [] => false
  | c :: rest =>
    (c.isAlpha || c.isDigit) && rest.all (fun d => d.isAlpha || d.isDigit || d == '-')

/-- The final domain component: at least two characters, letters only. -/
def emailTldOk (cs : List Char) : Bool :=
  2 ≤ cs.length && cs.all Char.isAlpha

/-- The dot-separated components of the domain: at least one label followed
by the final letters-only component. -/
def emailPartsOk : List (List Char) → Bool
  | [] => false
  | [_] => false
  | [lab, tld] => emailLabelOk lab && emailTldOk tld
  | lab :: rest => emailLabelOk lab && emailPartsOk rest

/-- No two consecutive dots anywhere in the string (the zod `(?!.*\.\.)`
lookahead, which scopes over the whole email). -/
def noDoubleDot : List Char → Bool
  | [] => true
  | [_] => true
  | c :: d :: rest => !(c == '.' && d == '.') && noDoubleDot (d :: rest)

/-- the zod `z.string().email()` validator, the anchored case-insensitive
pattern `(?!\.)(?!.*\.\.)([A-Z0-9_\x27+\-\.]*)[A-Z0-9_+-]@([A-Z0-9][A-Z0-9\-]*\.)+[A-Z]\x7b2,\x7d`:
the string does not start with a dot, contains no double dot, and splits at a
single `@` into a valid local part and a valid domain. -/
def validEmail (s : String) : Bool :=
  let cs := s.data
  (match cs.head? with
   | none => false
   | some c => !(c == '.')) &&
  noDoubleDot cs &&
  (match cs.splitOn '@' with
   | [localPart, domainPart] =>
     emailLocalOk localPart && emailPartsOk (domainPart.splitOn '.')
   | _ => false)

/-- Issues collected for `name : z.string().min(2).max(100)` on the raw
field value (`null` when the form field was absent). -/
def nameIssues : Option String → List ZodIssue
  | none => [ZodIssue.invalidType]
  | some s =>
    (if s.length < 2 then [ZodIssue.tooSmall] else []) ++
      (if 100 < s.length then [ZodIssue.tooBig] else [])

/-- Issues collected for `email : z.string().email()`. -/
def emailFieldIssues : Option String → List ZodIssue
  | none => [ZodIssue.invalidType]
  | some s => if validEmail s then [] else [ZodIssue.invalidString]

/-- Issues collected for `feedback : z.string().min(10).max(1000)`. -/
def feedbackIssues : Option String → List ZodIssue
  | none => [ZodIssue.invalidType]
  | some s =>
    (if s.length < 10 then [ZodIssue.tooSmall] else []) ++
      (if 1000 < s.length then [ZodIssue.tooBig] else [])

/-- The raw field values read in `submitFeedback`:
`formData.get("name") as string`, etc.  `formData.get` returns `null` when
the field is absent, modelled by `none`. -/
structure RawFeedbackForm where
  name : Option String
  email : Option String
  feedback : Option String
  deriving DecidableEq

/-- `error.flatten().fieldErrors`: per-field issue lists (an absent key in
the JavaScript object corresponds to an empty list here). -/
structure FieldErrors where
  name : List ZodIssue
  email : List ZodIssue
  feedback : List ZodIssue
  deriving DecidableEq

/-- The value returned by the `submitFeedback` server action: either
an errors-and-values object on validation failure or a success flag. -/
inductive FeedbackResult
  | failure (errors : FieldErrors) (values : RawFeedbackForm)
  | success
  deriving DecidableEq

/-- `feedbackSchema.safeParse(formValues)`: collect the issues of every
field. -/
def feedbackSchemaParse (formValues : RawFeedbackForm) : FieldErrors :=
  { name := nameIssues formValues.name
    email := emailFieldIssues formValues.email
    feedback := feedbackIssues formValues.feedback }

/-- The `submitFeedback` server action: read the three raw field values, run
the zod schema, and return the flattened field errors together with the raw
values when parsing failed, the success flag otherwise. -/
def submitFeedback (formData : RawFeedbackForm) : FeedbackResult :=
  let formValues := formData
  let errs := feedbackSchemaParse formValues
  if errs.name.isEmpty && errs.email.isEmpty && errs.feedback.isEmpty then
    FeedbackResult.success
  else
    FeedbackResult.failure errs formValues

/-! ## Helper lemmas -/

/-- Folding the optimistic reducer over a list of pending values appends the
pending values, in order, to the base state. -/
theorem applyOptimistic_eq_append (pending : List String) :
    ∀ base : List String, applyOptimistic base pending = base ++ pending := by
  induction pending with
  | nil => intro base; simp [applyOptimistic]
  | cons p ps ih =>
    intro base
    have h := ih (base ++ [p])
    simp only [applyOptimistic, List.foldl_cons] at *
    rw [optimisticReducer, h, List.append_assoc]
    rfl

/-! ## Claims -/

/-- C1: in every run of `submitComment`, the `revalidateTag("comments")`
signal appears in the effect trace only after the file write has completed,
and it appears in the trace of every run whose persist (and hence the whole
action) succeeds. -/
theorem submitComment_revalidation_placement (file : FileData) (writeOk : Bool)
    (comment : String) :
    revalidateAfterWrite false (submitComment file writeOk comment).2.2 = true ∧
    ((submitComment file writeOk comment).1 = Except.ok () →
      Ev.revalidateEv ∈ (submitComment file writeOk comment).2.2) := by
  cases file with
  | unreadable =>
    simp [submitComment, readFileJs, revalidateAfterWrite]
  | stored c =>
    cases c with
    | bad =>
      simp [submitComment, readFileJs, jsonParseLog, revalidateAfterWrite]
    | arr log =>
      cases writeOk with
      | false =>
        simp [submitComment, readFileJs, jsonParseLog, writeFileJs,
          revalidateAfterWrite]
      | true =>
        refine ⟨rfl, fun _ => ?_⟩
        simp [submitComment, readFileJs, jsonParseLog, writeFileJs]

/-- Witness for C1 at a concrete successful run. -/
theorem submitComment_revalidation_placement_witness :
    Ev.revalidateEv ∈
      (submitComment (FileData.stored (RawContent.arr ["a"])) true "c").2.2 :=
  (submitComment_revalidation_placement (FileData.stored (RawContent.arr ["a"]))
    true "c").2 rfl

/-- C2: appending a comment to an existing well-formed log and then reading
through `GET /api/comments` plus `response.json()` yields exactly the old log
with the new comment as its last element: the prior elements are preserved
unchanged and in order, and the new comment sits at the end. -/
theorem append_then_readAll (log : List String) (comment : String) :
    (submitComment (FileData.stored (RawContent.arr log)) true comment).1 =
      Except.ok () ∧
    readAll (submitComment (FileData.stored (RawContent.arr log)) true comment).2.1 =
      Except.ok (log ++ [comment]) ∧
    (log ++ [comment]).getLast? = some comment ∧
    (log ++ [comment]).dropLast = log := by
  refine ⟨rfl, rfl, ?_, ?_⟩ <;> simp

/-- C3 counterexample: with a readable well-formed (empty) log and a failing
write, `submitComment` does not return any failure result object — the write
error propagates as a thrown exception (the promise rejects), the remaining
statements are skipped, and the file is unchanged. -/
theorem submitComment_write_failure_throws :
    submitComment (FileData.stored (RawContent.arr [])) false "hello" =
      (Except.error JsError.ioWrite, FileData.stored (RawContent.arr []),
        [Ev.readEv]) := rfl

/-- C3 amended: when the append fails, `submitComment` propagates the thrown
write error to its caller and leaves the log unchanged; it has no
success-false result variant at all — its only normal return value is `()`
(void).  The thrown error is still mechanically distinguishable from a
validation failure, which `submitFeedback` returns as a data value and never
throws. -/
theorem submitComment_append_failure_propagates (log : List String)
    (comment : String) :
    (submitComment (FileData.stored (RawContent.arr log)) false comment).1 =
      Except.error JsError.ioWrite ∧
    (submitComment (FileData.stored (RawContent.arr log)) false comment).2.1 =
      FileData.stored (RawContent.arr log) ∧
    (submitComment (FileData.stored (RawContent.arr log)) true comment).1 =
      Except.ok () := by
  exact ⟨rfl, rfl, rfl⟩

/-- C4: every submission whose name is 2 to 100 characters, whose email
passes the zod email format, and whose feedback is 10 to 1000 characters is
accepted: `submitFeedback` returns the success variant and the schema parse
collects no field issues. -/
theorem submitFeedback_valid_succeeds (n e f : String)
    (hn1 : 2 ≤ n.length) (hn2 : n.length ≤ 100)
    (he : validEmail e = true)
    (hf1 : 10 ≤ f.length) (hf2 : f.length ≤ 1000) :
    submitFeedback ⟨some n, some e, some f⟩ = FeedbackResult.success ∧
    feedbackSchemaParse ⟨some n, some e, some f⟩ = ⟨[], [], []⟩ := by
  have h1 : nameIssues (some n) = [] := by
    simp only [nameIssues]
    rw [if_neg (by omega), if_neg (by omega)]
    rfl
  have h2 : emailFieldIssues (some e) = [] := by
    simp [emailFieldIssues, he]
  have h3 : feedbackIssues (some f) = [] := by
    simp only [feedbackIssues]
    rw [if_neg (by omega), if_neg (by omega)]
    rfl
  constructor
  · simp [submitFeedback, feedbackSchemaParse, h1, h2, h3]
  · simp [feedbackSchemaParse, h1, h2, h3]

/-- Witness for C4 at a concrete valid submission. -/
theorem submitFeedback_valid_succeeds_witness :
    submitFeedback ⟨some "Jo", some "a@b.co", some "0123456789"⟩ =
      FeedbackResult.success :=
  (submitFeedback_valid_succeeds "Jo" "a@b.co" "0123456789"
    (by decide) (by decide) (by decide) (by decide) (by decide)).1

/-- C5: the submission with name "A", email "bad" and feedback "short" is
rejected with one issue recorded per field (name too short, email malformed,
feedback too short), and on every rejected submission the returned values are
the raw submitted field values verbatim. -/
theorem submitFeedback_failure_echoes_values :
    submitFeedback ⟨some "A", some "bad", some "short"⟩ =
      FeedbackResult.failure
        ⟨[ZodIssue.tooSmall], [ZodIssue.invalidString], [ZodIssue.tooSmall]⟩
        ⟨some "A", some "bad", some "short"⟩ ∧
    ∀ fd errs vals, submitFeedback fd = FeedbackResult.failure errs vals →
      vals = fd := by
  constructor
  · decide
  · intro fd errs vals h
    unfold submitFeedback at h
    dsimp only at h
    split at h
    · exact absurd h (by simp)
    · injection h with h1 h2
      exact h2.symm

/-- Witness for C5: the echo property applied at the concrete rejected
submission. -/
theorem submitFeedback_failure_echoes_values_witness :
    submitFeedback ⟨some "A", some "bad", some "short"⟩ =
      FeedbackResult.failure
        ⟨[ZodIssue.tooSmall], [ZodIssue.invalidString], [ZodIssue.tooSmall]⟩
        ⟨some "A", some "bad", some "short"⟩ ∧
    (⟨some "A", some "bad", some "short"⟩ : RawFeedbackForm) =
      ⟨some "A", some "bad", some "short"⟩ :=
  ⟨by decide,
    submitFeedback_failure_echoes_values.2 ⟨some "A", some "bad", some "short"⟩
      ⟨[ZodIssue.tooSmall], [ZodIssue.invalidString], [ZodIssue.tooSmall]⟩
      ⟨some "A", some "bad", some "short"⟩ (by decide)⟩

/-- C6: the optimistic reducer appends the pending value at the end of the
state, the concrete overlay of base ["a","b"] with pending "x" is
["a","b","x"], and applying the reducer for successive pending values yields
the base followed by all pending values in first-in-first-out order. -/
theorem optimistic_overlay_appends (base : List String) (v : String)
    (pending : List String) :
    optimisticReducer base v = base ++ [v] ∧
    optimisticReducer ["a", "b"] "x" = ["a", "b", "x"] ∧
    applyOptimistic base pending = base ++ pending :=
  ⟨rfl, rfl, applyOptimistic_eq_append pending base⟩

/-- C7: with an absent or empty query `getComments` returns all records in
their original order; with a nonempty query it returns exactly the records
whose lowercased value contains the lowercased query as a substring, kept in
their original relative order (a sublist of the input); on
["Hello","world","Help"] with query "hel" it returns ["Hello","Help"]. -/
theorem getComments_filter_spec (records : List String) (q : String)
    (hq : q ≠ "") :
    getComments records none = records ∧
    getComments records (some "") = records ∧
    getComments records (some q) =
      records.filter (fun r => jsIncludes (toLowerCaseJs r) (toLowerCaseJs q)) ∧
    List.Sublist (getComments records (some q)) records ∧
    getComments ["Hello", "world", "Help"] (some "hel") = ["Hello", "Help"] := by
  have hfilter : getComments records (some q) =
      records.filter (fun r => jsIncludes (toLowerCaseJs r) (toLowerCaseJs q)) := by
    simp [getComments, hq]
  refine ⟨rfl, rfl, hfilter, ?_, by decide⟩
  rw [hfilter]
  exact List.filter_sublist records

/-- Witness for C7 at the concrete query "hel". -/
theorem getComments_filter_spec_witness :
    getComments ["Hello", "world", "Help"] (some "hel") = ["Hello", "Help"] :=
  (getComments_filter_spec ["Hello", "world", "Help"] "hel" (by decide)).2.2.2.2

/-- C8 counterexample: on a malformed stored document the `GET` route
succeeds — it returns the corrupt bytes verbatim in a normal response instead
of reporting an error. -/
theorem getRoute_malformed_not_an_error :
    getRoute (FileData.stored RawContent.bad) = Except.ok RawContent.bad := rfl

/-- C8 amended: the `GET` route fails exactly when the medium is unreadable;
on any readable document it returns the stored bytes verbatim — in particular
it never substitutes an empty list or any other default for corrupt content,
and it reports a well-formed log only when the store actually holds that log.
The corruption error is reported where the bytes are parsed: the full read
path (fetch plus `response.json()`) fails on a malformed document, as does
the `JSON.parse` step of `submitComment`. -/
theorem corruption_error_surfaces_at_parse (file : FileData) (writeOk : Bool)
    (comment : String) (h : file ≠ FileData.unreadable) :
    getRoute FileData.unreadable = Except.error JsError.ioRead ∧
    (∃ raw, file = FileData.stored raw ∧ getRoute file = Except.ok raw) ∧
    (∀ log, getRoute file = Except.ok (RawContent.arr log) →
      file = FileData.stored (RawContent.arr log)) ∧
    readAll (FileData.stored RawContent.bad) = Except.error JsError.syntaxError ∧
    (submitComment (FileData.stored RawContent.bad) writeOk comment).1 =
      Except.error JsError.syntaxError := by
  cases file with
  | unreadable => exact absurd rfl h
  | stored raw =>
    refine ⟨rfl, ⟨raw, rfl, rfl⟩, ?_, rfl, rfl⟩
    intro log hlog
    cases raw with
    | arr l =>
      simp only [getRoute, Except.ok.injEq, RawContent.arr.injEq] at hlog
      rw [hlog]
    | bad =>
      simp [getRoute] at hlog

/-- Witness for C8 amended, at a concrete readable (malformed) file. -/
theorem corruption_error_surfaces_at_parse_witness :
    readAll (FileData.stored RawContent.bad) = Except.error JsError.syntaxError :=
  (corruption_error_surfaces_at_parse (FileData.stored RawContent.bad) true "c"
    (by decide)).2.2.2.1

/-- C9: filtering with the empty query is the identity, it is idempotent, and
it agrees with filtering with an absent query. -/
theorem getComments_empty_query_identity (records : List String) :
    getComments records (some "") = records ∧
    getComments (getComments records (some "")) (some "") =
      getComments records (some "") ∧
    getComments records (some "") = getComments records none := by
  exact ⟨rfl, rfl, rfl⟩

/-- C10: on every raw submission, including those with absent (null) fields,
`submitFeedback` terminates with a tagged result — failure carrying the field
errors and the raw values, or success — and in particular the all-absent
submission yields an invalid-type issue for each field with the null values
echoed back; no exception is thrown. -/
theorem submitFeedback_total_result (fd : RawFeedbackForm) :
    (submitFeedback fd = FeedbackResult.success ∨
      ∃ errs, submitFeedback fd = FeedbackResult.failure errs fd) ∧
    submitFeedback ⟨none, none, none⟩ =
      FeedbackResult.failure
        ⟨[ZodIssue.invalidType], [ZodIssue.invalidType], [ZodIssue.invalidType]⟩
        ⟨none, none, none⟩ := by
  constructor
  · unfold submitFeedback
    dsimp only
    split
    · exact Or.inl rfl
    · exact Or.inr ⟨_, rfl⟩
  · decide

end ModernReactForms
